import Mathlib

/-!
# Verification of the tileserver window-resolution and compositing engine

Shallow embedding of the repository's core (`src/gdal_reader.rs` and
`src/xyz.rs`).  Conventions used throughout:

* Machine integers (`u8`, `usize`, `isize`) are modelled as `Nat`/`Int`;
  the `u8` type of pixel samples is enforced with an explicit `% 256` at
  the backend-read boundary, mirroring the Rust types.
* The `f64`/`f32` arithmetic of the source is idealized as exact
  arithmetic: a Rust `expr as usize` cast of a floating expression is
  modelled as truncation-toward-zero of the exact value (`Int.tdiv`,
  with negative values saturating to `0` via `Int.toNat`, matching the
  saturating behaviour of Rust float-to-int casts).  Division by zero
  yields `NaN` in Rust, which the cast sends to `0`; `Int.tdiv _ 0 = 0`
  matches this on every state the program can actually reach.
* The GDAL backend (dataset band/mask reads, which the repository
  consumes as an external capability) is a `Backend` oracle: each read
  either fails (a `GdalError`) or fills the caller's intermediate buffer
  with arbitrary `u8` data.
* Rust `Vec` indexing panics when out of bounds; buffer accesses are
  modelled with `List.get?` and an `Option` layer, `none` standing for a
  panic (`Outcome.crashed`).
-/

namespace Tileserver

/-- `src/bbox.rs`: the bounding-box record used by `tile_bounds_to_epsg3857`
and `read_rgba_from_gdal`. -/
structure BBox (α : Type) where
  min_x : α
  min_y : α
  max_x : α
  max_y : α
deriving DecidableEq, Repr

/-- `src/gdal_reader.rs` lines 8-11: compositing background. -/
inductive Background where
  | alpha : Background
  | rgb : Nat → Nat → Nat → Background
deriving DecidableEq, Repr

/-- `src/gdal_reader.rs` lines 35-41: the error enum of
`read_rgba_from_gdal`.  It has exactly two variants: a band-count error
and a wrapped GDAL backend error. -/
inductive ReadError where
  | bandCountError : ReadError
  | gdalError : ReadError
deriving DecidableEq, Repr

/-- Result of a call to `read_rgba_from_gdal`: either a Rust panic
(out-of-bounds index), an `Err(ReadError)`, or `Ok((has_alpha, data))`. -/
inductive Outcome where
  | crashed : Outcome
  | fail : ReadError → Outcome
  | ok : Bool → List Nat → Outcome
deriving DecidableEq, Repr

/-- The dataset attributes `read_rgba_from_gdal` queries directly:
`raster_count()` and `raster_size()`. -/
structure Dataset where
  rasterCount : Nat
  rasterWidth : Nat
  rasterHeight : Nat

/-- Oracle for the GDAL backend reads performed by `read_rgba_from_gdal`:
`geo_transform()`, the band-4 alpha read, and the per-band mask/data
reads (`open_mask_band` + `read_into_slice`).  A `false` in an `Ok`
field models that read returning `Err(GdalError)`; the `At` functions
give the bytes the read deposits at each flat index of the intermediate
buffer. -/
structure Backend where
  geoOk : Bool
  alphaOk : Bool
  maskOk : Nat → Bool
  bandOk : Nat → Bool
  alphaAt : Nat → Nat
  maskAt : Nat → Nat → Nat
  bandAt : Nat → Nat → Nat

/-- Rust `expr as usize` applied to the exact value `n / d`: truncation
toward zero, negative (and `NaN`, i.e. `0/0`) values becoming `0`. -/
def truncToUsize (n d : Int) : Nat := (Int.tdiv n d).toNat

/-- The resolved window: lines 88-122 of `src/gdal_reader.rs`. -/
structure Resolved where
  adjWindowX : Int
  adjWindowY : Int
  adjSourceWidth : Nat
  adjSourceHeight : Nat
  ww : Nat
  hh : Nat
  offX : Nat
  offY : Nat
deriving DecidableEq, Repr

/-- Window resolution, `src/gdal_reader.rs` lines 70-122, starting from
the already-rounded pixel bounds (`pixel_min_x`, `pixel_max_x`,
`pixel_min_y`, `pixel_max_y` of lines 65-68).  `size0`/`size1` are the
requested output width/height. -/
def resolveWindow (pMinX pMaxX pMinY pMaxY : Int) (rasterW rasterH : Nat)
    (size0 size1 : Nat) : Resolved :=
  let windowX := pMinX
  let windowY := pMinY
  let sourceW := pMaxX - pMinX
  let sourceH := pMaxY - pMinY
  let adjX : Int := min (max windowX 0) (rasterW : Int)
  let adjY : Int := min (max windowY 0) (rasterH : Int)
  let adjSW : Nat := (max (min (windowX + sourceW) (rasterW : Int) - adjX) 0).toNat
  let adjSH : Nat := (max (min (windowY + sourceH) (rasterH : Int) - adjY) 0).toNat
  let ww : Nat := truncToUsize ((size0 : Int) * (adjSW : Int)) sourceW
  let hh : Nat := truncToUsize ((size1 : Int) * (adjSH : Int)) sourceH
  let offX : Nat :=
    if windowX = adjX then 0
    else if pMinX ≤ 0 ∧ (rasterW : Int) ≤ pMaxX then
      truncToUsize (0 - (size0 : Int) * windowX) sourceW
    else size0 - ww
  let offY : Nat :=
    if windowY = adjY then 0
    else if pMinY ≤ 0 ∧ (rasterH : Int) ≤ pMaxY then
      truncToUsize (0 - (size1 : Int) * windowY) sourceH
    else size1 - hh
  ⟨adjX, adjY, adjSW, adjSH, ww, hh, offX, offY⟩

/-- Line 79-83: the output channel count is 4 exactly when the raster
has 4 bands and the background is `Alpha`, else 3. -/
def resultCount (inputCount : Nat) (bg : Background) : Nat :=
  if inputCount = 4 ∧ bg = Background.alpha then 4 else 3

/-- `vec![...].into_iter().cycle().take(n).collect()`. -/
def cycleTake (pat : List Nat) (n : Nat) : List Nat :=
  (List.range n).map (fun i => pat.getD (i % pat.length) 0)

/-- Lines 126-140: the output buffer initialised to the background
(the `% 256` models the `u8` fields of `Background::Rgb`). -/
def initResult (bg : Background) (rc bandSize : Nat) : List Nat :=
  match bg, rc with
  | Background.rgb r g b, 4 => cycleTake [r % 256, g % 256, b % 256, 255] (bandSize * 4)
  | Background.rgb r g b, 3 => cycleTake [r % 256, g % 256, b % 256] (bandSize * 3)
  | _, _ => List.replicate (bandSize * rc) 0

/-- A backend read depositing `n` `u8` samples into an intermediate
buffer of length `n`. -/
def readBuf (f : Nat → Nat) (n : Nat) : List Nat :=
  (List.range n).map (fun i => f i % 256)

/-- Row-major list of the positions `(y, x)` with `y < rows`,
`x < cols`, in loop order. -/
def gridPositions : Nat → Nat → List (Nat × Nat)
  | 0, _ => []
  | rows + 1, cols => gridPositions rows cols ++ (List.range cols).map (fun x => (rows, x))

/-- The positions the compositing double loop of lines 185-186 actually
iterates: `for y in 0..size.0.min(hh) { for x in 0..size.1.min(ww) }`.
Note the swap: the row bound compares the output *width* `size.0` with
the intermediate height `hh`, and the column bound the output *height*
`size.1` with the intermediate width `ww`. -/
def visitedPositions (size0 size1 ww hh : Nat) : List (Nat × Nat) :=
  gridPositions (min size0 hh) (min size1 ww)

/-- One iteration of the loop body, lines 187-203: skip when the mask is
zero, otherwise write the source sample (or its alpha blend over the
current output value) at
`((y + off_y) * size.0 + (x + off_x)) * result_count + band_index`.
Every `Vec` index is bounds-checked; `none` is a panic. -/
def writeOne (alphaB : Option (List Nat)) (maskD srcD : List Nat)
    (size0 ww offX offY rc bandIndex : Nat)
    (acc : List Nat) (pos : Nat × Nat) : Option (List Nat) :=
  let di := pos.1 * ww + pos.2
  match maskD.get? di with
  | none => none
  | some m =>
    if m = 0 then some acc
    else
      let ri := ((pos.1 + offY) * size0 + (pos.2 + offX)) * rc + bandIndex
      match srcD.get? di, acc.get? ri with
      | some s, some cur =>
        match alphaB with
        | none => some (acc.set ri s)
        | some ab =>
          match ab.get? di with
          | some a => some (acc.set ri ((s * a + cur * (255 - a)) / 255))
          | none => none
      | _, _ => none

/-- The double loop of lines 185-205 compositing one band into the
output buffer. -/
def compositeBand (alphaB : Option (List Nat)) (maskD srcD : List Nat)
    (size0 size1 ww hh offX offY rc bandIndex : Nat)
    (res : List Nat) : Option (List Nat) :=
  (visitedPositions size0 size1 ww hh).foldlM
    (writeOne alphaB maskD srcD size0 ww offX offY rc bandIndex) res

/-- Modelled from the spec's words (claim C2, for comparison with the
code's `compositeBand`): the compositing loop "visits exactly the pixel
positions of the intermediate read rectangle (rows 0..intermediate_height,
columns 0..intermediate_width)", i.e. iterates `gridPositions hh ww`
instead of the code's `visitedPositions size0 size1 ww hh`. -/
def compositeBandSpec (alphaB : Option (List Nat)) (maskD srcD : List Nat)
    (size0 size1 ww hh offX offY rc bandIndex : Nat)
    (res : List Nat) : Option (List Nat) :=
  (gridPositions hh ww).foldlM
    (writeOne alphaB maskD srcD size0 ww offX offY rc bandIndex) res

/-- One iteration of the band loop, lines 160-206: open the mask band
and read mask and band data (any backend failure is a `GdalError`),
then run the compositing double loop. -/
def bandStep (bk : Backend) (alphaB : Option (List Nat))
    (size0 size1 ww hh offX offY rc : Nat)
    (acc : Option (Except ReadError (List Nat))) (bandIndex : Nat) :
    Option (Except ReadError (List Nat)) :=
  match acc with
  | some (Except.ok res) =>
    if bk.maskOk bandIndex = false then some (Except.error ReadError.gdalError)
    else if bk.bandOk bandIndex = false then some (Except.error ReadError.gdalError)
    else
      match compositeBand alphaB
          (readBuf (bk.maskAt bandIndex) (hh * ww))
          (readBuf (bk.bandAt bandIndex) (hh * ww))
          size0 size1 ww hh offX offY rc bandIndex res with
      | none => none
      | some res2 => some (Except.ok res2)
  | other => other

/-- The index sequence of `(0..len).step_by(3)` used by the
premultiplication pass at line 210. -/
def stepBy3 (len : Nat) : List Nat :=
  (List.range ((len + 2) / 3)).map (fun k => k * 3)

/-- One iteration of the premultiplication pass, lines 211-219: read the
alpha at `i + 3` and the colors at `i`, `i+1`, `i+2`, then store each
color scaled by `alpha / 255` (the `f32` arithmetic idealized as the
exact truncated value `c * a / 255`).  `none` is an out-of-bounds
panic. -/
def premultiplyStep (res : List Nat) (i : Nat) : Option (List Nat) :=
  match res.get? (i + 3), res.get? i, res.get? (i + 1), res.get? (i + 2) with
  | some a, some r, some g, some b =>
    some (((res.set i (r * a / 255)).set (i + 1) (g * a / 255)).set (i + 2) (b * a / 255))
  | _, _, _, _ => none

/-- The premultiplication pass, lines 209-221: iterate `premultiplyStep`
over `(0..result_data.len()).step_by(3)`. -/
def premultiply (res : List Nat) : Option (List Nat) :=
  (stepBy3 res.length).foldlM premultiplyStep res

/-- `read_rgba_from_gdal`, `src/gdal_reader.rs` lines 43-224, starting
from the rounded pixel bounds of lines 65-68 (the conversion of the
geographic box through the geotransform; the `geo_transform()?` call
itself is the `geoOk` oracle read). -/
def read_rgba_from_gdal (ds : Dataset) (pMinX pMaxX pMinY pMaxY : Int)
    (size0 size1 : Nat) (bg : Background) (bk : Backend) : Outcome :=
  if ds.rasterCount < 3 ∨ 4 < ds.rasterCount then Outcome.fail ReadError.bandCountError
  else if bk.geoOk = false then Outcome.fail ReadError.gdalError
  else
    let r := resolveWindow pMinX pMaxX pMinY pMaxY ds.rasterWidth ds.rasterHeight size0 size1
    let bandSize := size0 * size1
    let rc := resultCount ds.rasterCount bg
    let res0 := initResult bg rc bandSize
    if rc = 4 ∧ bk.alphaOk = false then Outcome.fail ReadError.gdalError
    else
      let alphaB := if rc = 4 then some (readBuf bk.alphaAt (r.hh * r.ww)) else none
      match (List.range rc).foldl
          (bandStep bk alphaB size0 size1 r.ww r.hh r.offX r.offY rc)
          (some (Except.ok res0)) with
      | none => Outcome.crashed
      | some (Except.error e) => Outcome.fail e
      | some (Except.ok res) =>
        if rc = 4 then
          match premultiply res with
          | none => Outcome.crashed
          | some res2 => Outcome.ok true res2
        else Outcome.ok false res

/-- `src/xyz.rs` lines 7-25.  `HALF_CIRCUMFERENCE = π * 6378137` is
irrational, so the constant is a parameter `H`; every property claimed
of `tile_bounds_to_epsg3857` is independent of its value.  The `f64`
`mul_add` arithmetic is idealized as exact arithmetic over `ℚ`. -/
def tile_bounds_to_epsg3857 (H : ℚ) (x y z tile_size : Nat) : BBox ℚ :=
  let ts : ℚ := tile_size
  let total_pixels : ℚ := ts * 2 ^ z
  let pixel_size : ℚ := 2 * H / total_pixels
  let min_x : ℚ := (x : ℚ) * ts * pixel_size + (-H)
  let max_y : ℚ := (y : ℚ) * ts * (-pixel_size) + H
  let max_x : ℚ := ts * pixel_size + min_x
  let min_y : ℚ := ts * (-pixel_size) + max_y
  ⟨min_x, min_y, max_x, max_y⟩

/-- The pixel size of the spec: `2 * half_circumference / (tile_size * 2 ^ zoom)`. -/
def pixelSize (H : ℚ) (z tile_size : Nat) : ℚ := 2 * H / ((tile_size : ℚ) * 2 ^ z)

/-- A backend whose reads all succeed: every mask sample is 255 (valid),
every band sample is 50, every alpha sample is 128. -/
def bkOk : Backend :=
  ⟨true, true, fun _ => true, fun _ => true, fun _ => 128, fun _ _ => 255, fun _ _ => 50⟩

/-! ## Helper lemmas -/

theorem gridPositions_mem (rows cols y x : Nat) :
    (y, x) ∈ gridPositions rows cols ↔ y < rows ∧ x < cols := by
  induction rows with
  | zero => simp [gridPositions]
  | succ n ih =>
    simp only [gridPositions, List.mem_append, List.mem_map, List.mem_range, ih]
    constructor
    · rintro (⟨h1, h2⟩ | ⟨a, ha, heq⟩)
      · omega
      · cases heq
        omega
    · rintro ⟨hy, hx⟩
      rcases Nat.lt_succ_iff_lt_or_eq.mp hy with h | h
      · exact Or.inl ⟨h, hx⟩
      · exact Or.inr ⟨x, hx, by rw [h]⟩

theorem writeOne_length (alphaB : Option (List Nat)) (maskD srcD : List Nat)
    (s0 ww oX oY rc b : Nat) (acc : List Nat) (pos : Nat × Nat) (r : List Nat)
    (h : writeOne alphaB maskD srcD s0 ww oX oY rc b acc pos = some r) :
    r.length = acc.length := by
  unfold writeOne at h
  dsimp only at h
  cases hm : maskD.get? (pos.1 * ww + pos.2) with
  | none => rw [hm] at h; simp at h
  | some m =>
    rw [hm] at h
    by_cases hm0 : m = 0
    · simp [hm0] at h
      simp [← h]
    · simp only [hm0, if_false] at h
      cases hs : srcD.get? (pos.1 * ww + pos.2) with
      | none => rw [hs] at h; simp at h
      | some s =>
        rw [hs] at h
        cases hc : acc.get? (((pos.1 + oY) * s0 + (pos.2 + oX)) * rc + b) with
        | none => rw [hc] at h; simp at h
        | some cur =>
          rw [hc] at h
          cases alphaB with
          | none => dsimp only at h; simp at h; simp [← h]
          | some ab =>
            dsimp only at h
            cases ha : ab.get? (pos.1 * ww + pos.2) with
            | none => rw [ha] at h; simp at h
            | some a => rw [ha] at h; simp at h; simp [← h]

theorem premultiplyStep_length (res : List Nat) (i : Nat) (r : List Nat)
    (h : premultiplyStep res i = some r) : r.length = res.length := by
  unfold premultiplyStep at h
  cases h3 : res.get? (i + 3) with
  | none => rw [h3] at h; simp at h
  | some a =>
    rw [h3] at h
    cases h0 : res.get? i with
    | none => rw [h0] at h; simp at h
    | some rr =>
      rw [h0] at h
      cases h1 : res.get? (i + 1) with
      | none => rw [h1] at h; simp at h
      | some g =>
        rw [h1] at h
        cases h2 : res.get? (i + 2) with
        | none => rw [h2] at h; simp at h
        | some bb => rw [h2] at h; simp at h; simp [← h]

theorem foldlM_some_length {α : Type} (f : List Nat → α → Option (List Nat))
    (hf : ∀ a i r, f a i = some r → r.length = a.length) :
    ∀ (l : List α) (acc r : List Nat), l.foldlM f acc = some r → r.length = acc.length := by
  intro l
  induction l with
  | nil =>
    intro acc r h
    simp only [List.foldlM_nil, pure, Option.some.injEq] at h
    rw [h]
  | cons x xs ih =>
    intro acc r h
    rw [List.foldlM_cons] at h
    cases hfx : f acc x with
    | none => rw [hfx] at h; simp at h
    | some a' =>
      rw [hfx] at h
      exact (ih a' r (by simpa using h)).trans (hf acc x a' hfx)

theorem compositeBand_length (alphaB : Option (List Nat)) (maskD srcD : List Nat)
    (s0 s1 ww hh oX oY rc b : Nat) (res r : List Nat)
    (h : compositeBand alphaB maskD srcD s0 s1 ww hh oX oY rc b res = some r) :
    r.length = res.length :=
  foldlM_some_length _ (fun a i r hr => writeOne_length alphaB maskD srcD s0 ww oX oY rc b a i r hr)
    _ res r h

theorem premultiply_length (res r : List Nat) (h : premultiply res = some r) :
    r.length = res.length :=
  foldlM_some_length _ (fun a i r hr => premultiplyStep_length a i r hr) _ res r h

theorem cycleTake_length (pat : List Nat) (n : Nat) : (cycleTake pat n).length = n := by
  simp [cycleTake]

theorem initResult_length (bg : Background) (rc bandSize : Nat) :
    (initResult bg rc bandSize).length = bandSize * rc := by
  unfold initResult
  split
  all_goals simp [cycleTake_length]

theorem premultiplyStep_some_of_lt (res : List Nat) (i : Nat) (h : i + 3 < res.length) :
    ∃ r, premultiplyStep res i = some r ∧ r.length = res.length := by
  obtain ⟨a, h3⟩ : ∃ a, res.get? (i + 3) = some a := by
    cases hx : res.get? (i + 3) with
    | none => exact absurd (List.get?_eq_none.mp hx) (by omega)
    | some a => exact ⟨a, rfl⟩
  obtain ⟨v0, h0⟩ : ∃ v, res.get? i = some v := by
    cases hx : res.get? i with
    | none => exact absurd (List.get?_eq_none.mp hx) (by omega)
    | some v => exact ⟨v, rfl⟩
  obtain ⟨v1, h1⟩ : ∃ v, res.get? (i + 1) = some v := by
    cases hx : res.get? (i + 1) with
    | none => exact absurd (List.get?_eq_none.mp hx) (by omega)
    | some v => exact ⟨v, rfl⟩
  obtain ⟨v2, h2⟩ : ∃ v, res.get? (i + 2) = some v := by
    cases hx : res.get? (i + 2) with
    | none => exact absurd (List.get?_eq_none.mp hx) (by omega)
    | some v => exact ⟨v, rfl⟩
  refine ⟨((res.set i (v0 * a / 255)).set (i + 1) (v1 * a / 255)).set (i + 2) (v2 * a / 255),
    ?_, by simp⟩
  unfold premultiplyStep
  rw [h3, h0, h1, h2]

theorem premultiplyStep_none_of_ge (res : List Nat) (i : Nat) (h : res.length ≤ i + 3) :
    premultiplyStep res i = none := by
  have h3 : res.get? (i + 3) = none := List.get?_eq_none.mpr h
  unfold premultiplyStep
  rw [h3]

theorem premultiplyRun_some : ∀ (l : List Nat) (acc : List Nat),
    (∀ i ∈ l, i + 3 < acc.length) →
    ∃ r, l.foldlM premultiplyStep acc = some r ∧ r.length = acc.length := by
  intro l
  induction l with
  | nil => intro acc _; exact ⟨acc, by simp [List.foldlM_nil], rfl⟩
  | cons i is ih =>
    intro acc hb
    obtain ⟨r1, h1, hl1⟩ := premultiplyStep_some_of_lt acc i (hb i (by simp))
    obtain ⟨r2, h2, hl2⟩ := ih r1 (fun j hj => by rw [hl1]; exact hb j (by simp [hj]))
    refine ⟨r2, ?_, by omega⟩
    rw [List.foldlM_cons, h1]
    simpa using h2

/-- The premultiplication pass of lines 209-221 walks with stride 3
through a buffer whose last iteration always reads `i + 3` past the
end: it panics on every nonempty buffer. -/
theorem premultiply_nonempty_none (res : List Nat) (h : res ≠ []) : premultiply res = none := by
  have hlen : 1 ≤ res.length := List.length_pos.mpr h
  have hK1 : 1 ≤ (res.length + 2) / 3 := by omega
  have hsplit : stepBy3 res.length =
      (List.range ((res.length + 2) / 3 - 1)).map (fun k => k * 3) ++
        [((res.length + 2) / 3 - 1) * 3] := by
    unfold stepBy3
    have hk : (res.length + 2) / 3 = ((res.length + 2) / 3 - 1) + 1 := by omega
    rw [hk, List.range_succ, List.map_append]
    simp
  obtain ⟨r1, h1, hl1⟩ :=
    premultiplyRun_some ((List.range ((res.length + 2) / 3 - 1)).map (fun k => k * 3)) res
      (by
        intro i hi
        simp only [List.mem_map, List.mem_range] at hi
        obtain ⟨k, hk, rfl⟩ := hi
        omega)
  unfold premultiply
  rw [hsplit, List.foldlM_append, h1]
  have hfail : premultiplyStep r1 (((res.length + 2) / 3 - 1) * 3) = none :=
    premultiplyStep_none_of_ge r1 _ (by omega)
  simp [hfail]

theorem bandStep_passthrough_none (bk : Backend) (alphaB : Option (List Nat))
    (s0 s1 ww hh oX oY rc b : Nat) :
    bandStep bk alphaB s0 s1 ww hh oX oY rc none b = none := rfl

theorem bandStep_passthrough_error (bk : Backend) (alphaB : Option (List Nat))
    (s0 s1 ww hh oX oY rc b : Nat) (e : ReadError) :
    bandStep bk alphaB s0 s1 ww hh oX oY rc (some (Except.error e)) b =
      some (Except.error e) := rfl

theorem bandStep_ok_length (bk : Backend) (alphaB : Option (List Nat))
    (s0 s1 ww hh oX oY rc b : Nat) (res res' : List Nat)
    (h : bandStep bk alphaB s0 s1 ww hh oX oY rc (some (Except.ok res)) b =
      some (Except.ok res')) : res'.length = res.length := by
  unfold bandStep at h
  dsimp only at h
  by_cases hmk : bk.maskOk b = false
  · rw [if_pos hmk] at h; simp at h
  · rw [if_neg hmk] at h
    by_cases hbd : bk.bandOk b = false
    · rw [if_pos hbd] at h; simp at h
    · rw [if_neg hbd] at h
      cases hcb : compositeBand alphaB (readBuf (bk.maskAt b) (hh * ww))
          (readBuf (bk.bandAt b) (hh * ww)) s0 s1 ww hh oX oY rc b res with
      | none => rw [hcb] at h; simp at h
      | some res2 =>
        rw [hcb] at h
        simp only [Option.some.injEq, Except.ok.injEq] at h
        rw [← h]
        exact compositeBand_length _ _ _ _ _ _ _ _ _ _ _ _ _ hcb

theorem bandLoop_ok_length (bk : Backend) (alphaB : Option (List Nat))
    (s0 s1 ww hh oX oY rc : Nat) :
    ∀ (l : List Nat) (acc : Option (Except ReadError (List Nat))) (res' : List Nat),
      List.foldl (bandStep bk alphaB s0 s1 ww hh oX oY rc) acc l = some (Except.ok res') →
      ∃ res, acc = some (Except.ok res) ∧ res'.length = res.length := by
  intro l
  induction l with
  | nil =>
    intro acc res' h
    exact ⟨res', h, rfl⟩
  | cons x xs ih =>
    intro acc res' h
    rw [List.foldl_cons] at h
    obtain ⟨res1, hstep, hlen⟩ := ih _ res' h
    cases acc with
    | none => rw [bandStep_passthrough_none] at hstep; exact absurd hstep (by simp)
    | some exc =>
      cases exc with
      | error e =>
        rw [bandStep_passthrough_error] at hstep
        simp at hstep
      | ok res =>
        exact ⟨res, rfl, by rw [hlen, bandStep_ok_length bk alphaB s0 s1 ww hh oX oY rc x res res1 hstep]⟩

theorem bandLoop_no_error (bk : Backend) (alphaB : Option (List Nat))
    (s0 s1 ww hh oX oY rc : Nat)
    (hm : ∀ b, bk.maskOk b = true) (hb : ∀ b, bk.bandOk b = true) :
    ∀ (l : List Nat) (acc : Option (Except ReadError (List Nat))),
      (∀ e, acc ≠ some (Except.error e)) →
      ∀ e, List.foldl (bandStep bk alphaB s0 s1 ww hh oX oY rc) acc l ≠
        some (Except.error e) := by
  intro l
  induction l with
  | nil => intro acc hacc e; exact hacc e
  | cons x xs ih =>
    intro acc hacc e
    rw [List.foldl_cons]
    refine ih _ ?_ e
    intro e'
    cases acc with
    | none => rw [bandStep_passthrough_none]; simp
    | some exc =>
      cases exc with
      | error e'' => exact absurd rfl (hacc e'')
      | ok res =>
        unfold bandStep
        dsimp only
        rw [hm x, hb x]
        simp only [Bool.true_eq_false, if_false]
        cases hcb : compositeBand alphaB (readBuf (bk.maskAt x) (hh * ww))
            (readBuf (bk.bandAt x) (hh * ww)) s0 s1 ww hh oX oY rc x res with
        | none => simp
        | some res2 => simp

theorem resultCount_eq_four (c : Nat) (bg : Background) :
    resultCount c bg = 4 ↔ c = 4 ∧ bg = Background.alpha := by
  unfold resultCount
  by_cases h : c = 4 ∧ bg = Background.alpha
  · simp [h]
  · simp only [if_neg h]
    constructor
    · intro h3; exact absurd h3 (by decide)
    · intro hc; exact absurd hc h

/-! ## Claim theorems -/

/-- C1: the specification asks the premultiplication pass to visit every
4-channel pixel once and replace each color channel `c` by
`⌊c * alpha / 255⌋` (200 with alpha 128 becoming 100) leaving the alpha
channel unchanged.  The code instead strides by 3 while reading 4 slots
per iteration: evaluated at the spec's own example pixel
`[200, 200, 200, 128]`, the pass reads index 6 of a 4-element buffer and
panics instead of producing `[100, 100, 100, 128]`. -/
theorem C1_premultiply_example_crashes : premultiply [200, 200, 200, 128] = none := by decide

/-- C3 counterexample: a request whose rounded source pixel width is zero
(`pixel_min_x = pixel_max_x = 0`) does not fail with any error — with a
3-channel output and succeeding backend reads the call returns the
background buffer, refuting "window resolution fails with a
degenerate-window error before any backend read, and no other outcome is
possible". -/
theorem C3_counterexample_degenerate_succeeds :
    read_rgba_from_gdal ⟨3, 1, 1⟩ 0 0 0 1 1 1 (Background.rgb 7 8 9) bkOk =
      Outcome.ok false [7, 8, 9] := by decide

/-- C3 amended: there is no degenerate-window error (the `ReadError`
enum has only `BandCountError` and `GdalError`); a window whose rounded
source width (resp. height) is zero instead resolves to an intermediate
read size of 0 on that axis (the float division by zero produces `NaN`,
which the `as usize` cast turns into 0) and the call proceeds. -/
theorem C3_degenerate_window (pMinX pMaxX pMinY pMaxY : Int) (rw rh s0 s1 : Nat) :
    (pMaxX = pMinX → (resolveWindow pMinX pMaxX pMinY pMaxY rw rh s0 s1).ww = 0)
    ∧ (pMaxY = pMinY → (resolveWindow pMinX pMaxX pMinY pMaxY rw rh s0 s1).hh = 0) := by
  constructor
  · intro h
    simp only [resolveWindow, truncToUsize]
    have hsw : max (min (pMinX + (pMaxX - pMinX)) (rw : Int) - min (max pMinX 0) (rw : Int)) 0
        = 0 := by omega
    rw [hsw]
    simp
  · intro h
    simp only [resolveWindow, truncToUsize]
    have hsh : max (min (pMinY + (pMaxY - pMinY)) (rh : Int) - min (max pMinY 0) (rh : Int)) 0
        = 0 := by omega
    rw [hsh]
    simp

/-- Witness for C3's amended theorem at a concrete degenerate window. -/
theorem C3_degenerate_window_witness :
    (5 : Int) = 5 ∧ (resolveWindow 5 5 0 1 1 1 7 7).ww = 0 :=
  ⟨rfl, (C3_degenerate_window 5 5 0 1 1 1 7 7).1 rfl⟩

/-- C4 counterexample: at `pixel_min_x = -1`, `pixel_max_x = 1`,
`raster_width = 1`, `requested_width = 3` the unclamped window contains
the whole raster on the x axis (case 2 of the claim), yet the code's
offset is `1` — the truncation of `3/2` — not the claim's
`round(−requested_width · origin / source_width) = round(3/2) = 2`. -/
theorem C4_counterexample_offset_truncates :
    ((resolveWindow (-1) 1 0 1 1 1 3 3).offX : Int) ≠
      round ((0 - (3 : ℚ) * (-1)) / ((1 : ℚ) - (-1))) := by
  have h1 : (resolveWindow (-1) 1 0 1 1 1 3 3).offX = 1 := by decide
  have h2 : round ((0 - (3 : ℚ) * (-1)) / ((1 : ℚ) - (-1))) = 2 := by norm_num [round_eq]
  rw [h1, h2]
  decide

/-- C4 amended: the three offset cases per axis, with the second case
*truncating* `−requested_output_size · unclamped_origin / unclamped_source_size`
toward zero (Rust `as usize` on the `f64` quotient) rather than rounding
it to the nearest integer. -/
theorem C4_offset_cases (pMinX pMaxX pMinY pMaxY : Int) (rw rh s0 s1 : Nat) :
    (pMinX = min (max pMinX 0) (rw : Int) →
      (resolveWindow pMinX pMaxX pMinY pMaxY rw rh s0 s1).offX = 0)
    ∧ (pMinX ≠ min (max pMinX 0) (rw : Int) → pMinX ≤ 0 → (rw : Int) ≤ pMaxX →
      (resolveWindow pMinX pMaxX pMinY pMaxY rw rh s0 s1).offX =
        truncToUsize (0 - (s0 : Int) * pMinX) (pMaxX - pMinX))
    ∧ (pMinX ≠ min (max pMinX 0) (rw : Int) → ¬(pMinX ≤ 0 ∧ (rw : Int) ≤ pMaxX) →
      (resolveWindow pMinX pMaxX pMinY pMaxY rw rh s0 s1).offX =
        s0 - (resolveWindow pMinX pMaxX pMinY pMaxY rw rh s0 s1).ww)
    ∧ (pMinY = min (max pMinY 0) (rh : Int) →
      (resolveWindow pMinX pMaxX pMinY pMaxY rw rh s0 s1).offY = 0)
    ∧ (pMinY ≠ min (max pMinY 0) (rh : Int) → pMinY ≤ 0 → (rh : Int) ≤ pMaxY →
      (resolveWindow pMinX pMaxX pMinY pMaxY rw rh s0 s1).offY =
        truncToUsize (0 - (s1 : Int) * pMinY) (pMaxY - pMinY))
    ∧ (pMinY ≠ min (max pMinY 0) (rh : Int) → ¬(pMinY ≤ 0 ∧ (rh : Int) ≤ pMaxY) →
      (resolveWindow pMinX pMaxX pMinY pMaxY rw rh s0 s1).offY =
        s1 - (resolveWindow pMinX pMaxX pMinY pMaxY rw rh s0 s1).hh) := by
  refine ⟨?_, ?_, ?_, ?_, ?_, ?_⟩
  · intro h
    simp only [resolveWindow]
    rw [if_pos h]
  · intro hne hle hge
    simp only [resolveWindow]
    rw [if_neg hne, if_pos ⟨hle, hge⟩]
  · intro hne hcond
    simp only [resolveWindow]
    rw [if_neg hne, if_neg hcond]
  · intro h
    simp only [resolveWindow]
    rw [if_pos h]
  · intro hne hle hge
    simp only [resolveWindow]
    rw [if_neg hne, if_pos ⟨hle, hge⟩]
  · intro hne hcond
    simp only [resolveWindow]
    rw [if_neg hne, if_neg hcond]

/-- Witness for C4's amended theorem: the containment case at the
counterexample's input, where the truncated offset is
`⌊3/2⌋ = 1`. -/
theorem C4_offset_cases_witness :
    ((-1 : Int) ≠ min (max (-1) 0) ((1 : Nat) : Int))
    ∧ (resolveWindow (-1) 1 0 1 1 1 3 3).offX =
        truncToUsize (0 - ((3 : Nat) : Int) * (-1)) (1 - (-1)) :=
  ⟨by decide,
    (C4_offset_cases (-1) 1 0 1 1 1 3 3).2.1 (by decide) (by decide) (by decide)⟩

/-- C7: a raster whose band count is not 3 and not 4 fails with
`BandCountError` for every window, output size and background, and the
outcome is independent of the entire backend oracle — no geotransform,
band, mask or alpha read can influence it, so the check happens before
any read. -/
theorem C7_band_count_guard (ds : Dataset) (pMinX pMaxX pMinY pMaxY : Int)
    (s0 s1 : Nat) (bg : Background) (bk : Backend)
    (h : ds.rasterCount < 3 ∨ 4 < ds.rasterCount) :
    read_rgba_from_gdal ds pMinX pMaxX pMinY pMaxY s0 s1 bg bk =
      Outcome.fail ReadError.bandCountError := by
  unfold read_rgba_from_gdal
  rw [if_pos h]

/-- Witness for C7 at a 2-band raster. -/
theorem C7_band_count_guard_witness :
    ((2 : Nat) < 3 ∨ 4 < (2 : Nat))
    ∧ read_rgba_from_gdal ⟨2, 1, 1⟩ 0 1 0 1 1 1 Background.alpha bkOk =
        Outcome.fail ReadError.bandCountError :=
  ⟨Or.inl (by decide),
    C7_band_count_guard ⟨2, 1, 1⟩ 0 1 0 1 1 1 Background.alpha bkOk (Or.inl (by decide))⟩

/-- C9: `tile_bounds_to_epsg3857` (a pure function of its inputs) always
produces a square box of side `tile_size * pixel_size` with
`pixel_size = 2 * half_circumference / (tile_size * 2 ^ zoom)`, and at
`(0, 0, 0, 256)` the box is exactly the world extent
`(-H, -H, H, H)` for `H` the half-circumference. -/
theorem C9_tile_bounds (H : ℚ) (x y z tile_size : Nat) :
    ((tile_bounds_to_epsg3857 H x y z tile_size).max_x -
        (tile_bounds_to_epsg3857 H x y z tile_size).min_x
      = (tile_size : ℚ) * pixelSize H z tile_size
    ∧ (tile_bounds_to_epsg3857 H x y z tile_size).max_y -
        (tile_bounds_to_epsg3857 H x y z tile_size).min_y
      = (tile_size : ℚ) * pixelSize H z tile_size)
    ∧ tile_bounds_to_epsg3857 H 0 0 0 256 = (⟨-H, -H, H, H⟩ : BBox ℚ) := by
  refine ⟨⟨?_, ?_⟩, ?_⟩
  · simp only [tile_bounds_to_epsg3857, pixelSize]
    ring
  · simp only [tile_bounds_to_epsg3857, pixelSize]
    ring
  · simp only [tile_bounds_to_epsg3857, BBox.mk.injEq]
    norm_num
    constructor <;> ring

/-- C2 counterexample: with a non-square request (output width 1, output
height 2) on a fully covered 1×2 raster, the intermediate rectangle is
`ww = 1, hh = 2` but the code's loop bounds
(`size.0.min(hh)` rows × `size.1.min(ww)` columns) visit only row 0, so
the loop does NOT visit exactly the intermediate read rectangle: the
code's band composite differs from the spec-worded one at this input. -/
theorem C2_counterexample_loop_bounds :
    compositeBand none [255, 255] [50, 50] 1 2 1 2 0 0 3 0 [0, 0, 0, 0, 0, 0] ≠
      compositeBandSpec none [255, 255] [50, 50] 1 2 1 2 0 0 3 0 [0, 0, 0, 0, 0, 0] := by
  decide

/-- C2 amended: the inner loop visits exactly the positions with
`row < min output_width intermediate_height` and
`col < min output_height intermediate_width` (which coincides with the
intermediate rectangle only when `hh ≤ size.0` and `ww ≤ size.1`, e.g.
for square outputs); a visited position with mask 0 leaves the output
unchanged, and a visited position with nonzero mask (no alpha band,
lookups in bounds) writes the source sample at
`((row + off_y) * output_width + (col + off_x)) * channel_count + band`. -/
theorem C2_loop_visits :
    (∀ s0 s1 ww hh y x : Nat,
      (y, x) ∈ visitedPositions s0 s1 ww hh ↔ y < min s0 hh ∧ x < min s1 ww)
    ∧ (∀ (alphaB : Option (List Nat)) (maskD srcD : List Nat) (s0 ww oX oY rc b : Nat)
        (acc : List Nat) (y x : Nat),
        maskD.get? (y * ww + x) = some 0 →
        writeOne alphaB maskD srcD s0 ww oX oY rc b acc (y, x) = some acc)
    ∧ (∀ (maskD srcD : List Nat) (s0 ww oX oY rc b : Nat) (acc : List Nat)
        (y x m s cur : Nat),
        maskD.get? (y * ww + x) = some m → m ≠ 0 →
        srcD.get? (y * ww + x) = some s →
        acc.get? (((y + oY) * s0 + (x + oX)) * rc + b) = some cur →
        writeOne none maskD srcD s0 ww oX oY rc b acc (y, x) =
          some (acc.set (((y + oY) * s0 + (x + oX)) * rc + b) s)) := by
  refine ⟨?_, ?_, ?_⟩
  · intro s0 s1 ww hh y x
    exact gridPositions_mem (min s0 hh) (min s1 ww) y x
  · intro alphaB maskD srcD s0 ww oX oY rc b acc y x hm
    unfold writeOne
    dsimp only
    rw [hm]
    simp
  · intro maskD srcD s0 ww oX oY rc b acc y x m s cur hm hm0 hs hc
    unfold writeOne
    dsimp only
    rw [hm]
    dsimp only
    rw [if_neg hm0, hs, hc]

/-- Witness for C2's amended theorem: a valid-mask single-pixel write. -/
theorem C2_loop_visits_witness :
    writeOne none [255] [50] 1 1 0 0 3 0 [0, 0, 0] (0, 0) = some ([0, 0, 0].set 0 50) :=
  C2_loop_visits.2.2 [255] [50] 1 1 0 0 3 0 [0, 0, 0] 0 0 255 50 0 rfl (by decide) rfl rfl

/-- C5: whenever an alpha band is present and the pixel's mask is
nonzero, the value written at the output index is the truncating integer
blend `(source * alpha + existing * (255 - alpha)) / 255` of the source
sample over the value currently stored there; in particular one band
pass over a single pixel with mask 255, alpha 128, existing 0 and source
200 stores `⌊(200·128 + 0·127)/255⌋ = 100`. -/
theorem C5_alpha_blend :
    (∀ (ab maskD srcD : List Nat) (s0 ww oX oY rc b : Nat) (acc : List Nat)
        (y x m s cur a : Nat),
        maskD.get? (y * ww + x) = some m → m ≠ 0 →
        srcD.get? (y * ww + x) = some s →
        acc.get? (((y + oY) * s0 + (x + oX)) * rc + b) = some cur →
        ab.get? (y * ww + x) = some a →
        writeOne (some ab) maskD srcD s0 ww oX oY rc b acc (y, x) =
          some (acc.set (((y + oY) * s0 + (x + oX)) * rc + b)
            ((s * a + cur * (255 - a)) / 255)))
    ∧ compositeBand (some [128]) [255] [200] 1 1 1 1 0 0 4 0 [0, 0, 0, 0] =
        some [100, 0, 0, 0] := by
  constructor
  · intro ab maskD srcD s0 ww oX oY rc b acc y x m s cur a hm hm0 hs hc ha
    unfold writeOne
    dsimp only
    rw [hm]
    dsimp only
    rw [if_neg hm0, hs, hc]
    dsimp only
    rw [ha]
  · decide

/-- Witness for C5 at the spec's numbers. -/
theorem C5_alpha_blend_witness :
    writeOne (some [128]) [255] [200] 1 1 0 0 4 0 [0, 0, 0, 0] (0, 0) =
      some ([0, 0, 0, 0].set 0 ((200 * 128 + 0 * (255 - 128)) / 255)) :=
  C5_alpha_blend.1 [128] [255] [200] 1 1 0 0 4 0 [0, 0, 0, 0] 0 0 255 200 0 128
    rfl (by decide) rfl rfl rfl

/-- C8: window resolution clamps the origin into `[0, raster_dimension]`
per axis, computes the clamped size as
`min(origin + size, raster_dimension) − clamped_origin` floored at zero
(a `Nat`, hence never negative), computes the intermediate read size as
the truncated `requested_output_size · clamped_size / unclamped_size`,
and on a fully contained nondegenerate window yields intermediate sizes
equal to the requested output sizes and zero offsets. -/
theorem C8_window_resolution (pMinX pMaxX pMinY pMaxY : Int) (rw rh s0 s1 : Nat) :
    ((resolveWindow pMinX pMaxX pMinY pMaxY rw rh s0 s1).adjWindowX
        = min (max pMinX 0) (rw : Int)
    ∧ (resolveWindow pMinX pMaxX pMinY pMaxY rw rh s0 s1).adjWindowY
        = min (max pMinY 0) (rh : Int))
    ∧ (((resolveWindow pMinX pMaxX pMinY pMaxY rw rh s0 s1).adjSourceWidth : Int)
        = max (min pMaxX (rw : Int) - min (max pMinX 0) (rw : Int)) 0
    ∧ ((resolveWindow pMinX pMaxX pMinY pMaxY rw rh s0 s1).adjSourceHeight : Int)
        = max (min pMaxY (rh : Int) - min (max pMinY 0) (rh : Int)) 0)
    ∧ ((resolveWindow pMinX pMaxX pMinY pMaxY rw rh s0 s1).ww
        = truncToUsize ((s0 : Int) *
            ((resolveWindow pMinX pMaxX pMinY pMaxY rw rh s0 s1).adjSourceWidth : Int))
          (pMaxX - pMinX)
    ∧ (resolveWindow pMinX pMaxX pMinY pMaxY rw rh s0 s1).hh
        = truncToUsize ((s1 : Int) *
            ((resolveWindow pMinX pMaxX pMinY pMaxY rw rh s0 s1).adjSourceHeight : Int))
          (pMaxY - pMinY))
    ∧ (0 ≤ pMinX → pMaxX ≤ (rw : Int) → 0 ≤ pMinY → pMaxY ≤ (rh : Int) →
       pMinX < pMaxX → pMinY < pMaxY →
       (resolveWindow pMinX pMaxX pMinY pMaxY rw rh s0 s1).ww = s0
       ∧ (resolveWindow pMinX pMaxX pMinY pMaxY rw rh s0 s1).hh = s1
       ∧ (resolveWindow pMinX pMaxX pMinY pMaxY rw rh s0 s1).offX = 0
       ∧ (resolveWindow pMinX pMaxX pMinY pMaxY rw rh s0 s1).offY = 0) := by
  refine ⟨⟨?_, ?_⟩, ⟨?_, ?_⟩, ⟨?_, ?_⟩, ?_⟩
  · simp [resolveWindow]
  · simp [resolveWindow]
  · simp only [resolveWindow]
    rw [Int.toNat_of_nonneg (by omega)]
    congr 2
    omega
  · simp only [resolveWindow]
    rw [Int.toNat_of_nonneg (by omega)]
    congr 2
    omega
  · simp [resolveWindow]
  · simp [resolveWindow]
  · intro hx0 hxw hy0 hyh hxlt hylt
    have hadjx : min (max pMinX 0) (rw : Int) = pMinX := by omega
    have hadjy : min (max pMinY 0) (rh : Int) = pMinY := by omega
    have hsw : max (min (pMinX + (pMaxX - pMinX)) (rw : Int) - min (max pMinX 0) (rw : Int)) 0
        = pMaxX - pMinX := by omega
    have hsh : max (min (pMinY + (pMaxY - pMinY)) (rh : Int) - min (max pMinY 0) (rh : Int)) 0
        = pMaxY - pMinY := by omega
    refine ⟨?_, ?_, ?_, ?_⟩
    · simp only [resolveWindow, hsw, truncToUsize]
      rw [Int.toNat_of_nonneg (by omega), Int.mul_tdiv_cancel _ (by omega)]
      simp
    · simp only [resolveWindow, hsh, truncToUsize]
      rw [Int.toNat_of_nonneg (by omega), Int.mul_tdiv_cancel _ (by omega)]
      simp
    · simp only [resolveWindow, hadjx]
      simp
    · simp only [resolveWindow, hadjy]
      simp

/-- Witness for C8's fully-contained case. -/
theorem C8_window_resolution_witness :
    ((0 : Int) ≤ 0 ∧ (4 : Int) ≤ ((4 : Nat) : Int))
    ∧ (resolveWindow 0 4 0 4 4 4 2 2).ww = 2
    ∧ (resolveWindow 0 4 0 4 4 4 2 2).offX = 0 := by
  have h := (C8_window_resolution 0 4 0 4 4 4 2 2).2.2.2 (by decide) (by decide)
    (by decide) (by decide) (by decide) (by decide)
  exact ⟨⟨by decide, by decide⟩, h.1, h.2.2.1⟩

/-- C6: every successful composite call returns a buffer of length
`width * height * channel_count`; the channel count is 4 exactly when
the raster has 4 bands and the background is Alpha; and the returned
`has_alpha` flag is true exactly when the channel count is 4. -/
theorem C6_output_shape (ds : Dataset) (pMinX pMaxX pMinY pMaxY : Int)
    (s0 s1 : Nat) (bg : Background) (bk : Backend) (hasA : Bool) (buf : List Nat)
    (h : read_rgba_from_gdal ds pMinX pMaxX pMinY pMaxY s0 s1 bg bk = Outcome.ok hasA buf) :
    buf.length = s0 * s1 * resultCount ds.rasterCount bg
    ∧ (resultCount ds.rasterCount bg = 4 ↔ ds.rasterCount = 4 ∧ bg = Background.alpha)
    ∧ (hasA = true ↔ resultCount ds.rasterCount bg = 4) := by
  unfold read_rgba_from_gdal at h
  dsimp only at h
  split at h
  · simp at h
  · split at h
    · simp at h
    · split at h
      · simp at h
      · split at h
        · simp at h
        · simp at h
        · rename_i res heqf
          split at h
          · rename_i hrc4
            split at h
            · simp at h
            · rename_i res2 heqp
              simp only [Outcome.ok.injEq] at h
              obtain ⟨hA, hbuf⟩ := h
              obtain ⟨res0, hacc, hlen⟩ :=
                bandLoop_ok_length _ _ _ _ _ _ _ _ _ _ _ _ heqf
              simp only [Option.some.injEq, Except.ok.injEq] at hacc
              refine ⟨?_, resultCount_eq_four _ _, ?_⟩
              · rw [← hbuf, premultiply_length res res2 heqp, hlen, ← hacc,
                  initResult_length]
              · rw [← hA, hrc4]
                simp
          · rename_i hrc4
            simp only [Outcome.ok.injEq] at h
            obtain ⟨hA, hbuf⟩ := h
            obtain ⟨res0, hacc, hlen⟩ :=
              bandLoop_ok_length _ _ _ _ _ _ _ _ _ _ _ _ heqf
            simp only [Option.some.injEq, Except.ok.injEq] at hacc
            refine ⟨?_, resultCount_eq_four _ _, ?_⟩
            · rw [← hbuf, hlen, ← hacc, initResult_length]
            · rw [← hA]
              simp [hrc4]

/-- Witness for C6 at a successful 3-channel composite. -/
theorem C6_output_shape_witness :
    [50, 50, 50].length = 1 * 1 * resultCount 3 (Background.rgb 0 0 0)
    ∧ (resultCount 3 (Background.rgb 0 0 0) = 4 ↔
        (3 : Nat) = 4 ∧ Background.rgb 0 0 0 = Background.alpha)
    ∧ (false = true ↔ resultCount 3 (Background.rgb 0 0 0) = 4) :=
  C6_output_shape ⟨3, 1, 1⟩ 0 1 0 1 1 1 (Background.rgb 0 0 0) bkOk false [50, 50, 50]
    (by decide)

/-- C10: the claim says the composite function never performs an
out-of-bounds access when all backend reads succeed.  In fact every
4-channel composite with a nonempty output panics: either the blend loop
itself indexes out of bounds, or the band loop succeeds and the
premultiplication pass reads `i + 3` past the end of the buffer.  With
all backend reads succeeding, a 4-band raster, Alpha background and any
nonzero output size, the call always crashes. -/
theorem C10_composite_crashes (ds : Dataset) (pMinX pMaxX pMinY pMaxY : Int)
    (s0 s1 : Nat) (bk : Backend)
    (h4 : ds.rasterCount = 4) (hgeo : bk.geoOk = true) (halpha : bk.alphaOk = true)
    (hm : ∀ b, bk.maskOk b = true) (hb : ∀ b, bk.bandOk b = true)
    (hsz : 0 < s0 * s1) :
    read_rgba_from_gdal ds pMinX pMaxX pMinY pMaxY s0 s1 Background.alpha bk =
      Outcome.crashed := by
  have hrc : resultCount ds.rasterCount Background.alpha = 4 := by
    simp [resultCount, h4]
  unfold read_rgba_from_gdal
  dsimp only
  rw [if_neg (by omega : ¬(ds.rasterCount < 3 ∨ 4 < ds.rasterCount))]
  rw [if_neg (by rw [hgeo]; simp : ¬(bk.geoOk = false))]
  rw [if_neg (by rw [halpha]; simp : ¬(resultCount ds.rasterCount Background.alpha = 4 ∧
    bk.alphaOk = false))]
  split
  · rfl
  · rename_i e heqf
    exact absurd heqf (bandLoop_no_error _ _ _ _ _ _ _ _ _ hm hb _ _ (by simp) e)
  · rename_i res heqf
    rw [if_pos hrc]
    obtain ⟨res0, hacc, hlen⟩ := bandLoop_ok_length _ _ _ _ _ _ _ _ _ _ _ _ heqf
    simp only [Option.some.injEq, Except.ok.injEq] at hacc
    have hne : res ≠ [] := by
      refine List.ne_nil_of_length_pos ?_
      rw [hlen, ← hacc, initResult_length, hrc]
      omega
    rw [premultiply_nonempty_none res hne]

/-- Witness for C10: the concrete 1×1 four-band composite crashes. -/
theorem C10_composite_crashes_witness :
    read_rgba_from_gdal ⟨4, 1, 1⟩ 0 1 0 1 1 1 Background.alpha bkOk = Outcome.crashed :=
  C10_composite_crashes ⟨4, 1, 1⟩ 0 1 0 1 1 1 bkOk rfl rfl rfl (fun _ => rfl) (fun _ => rfl)
    (by decide)

end Tileserver
